import Mathlib

/-!
Verification of the thunder-swap core against its specification.

The TypeScript sources are shallowly embedded: JavaScript numbers that hold
satoshi amounts or block heights become `Int` (no `NaN`/`Infinity` inhabits the
model, which the sources exclude via `Number.isFinite` checks), byte buffers
become `List Nat` with entries below 256, and JavaScript strings become
`List Char`.  External library calls (node `crypto` SHA-256, `bitcoinjs-lib`
key parsing, address encoding, Schnorr tweaking, the JSON-RPC transport) are
not code of this repository; they enter the model as explicit function
parameters bundled in environment structures, so every definition stays
executable and every theorem quantifies over their behaviour.
-/

namespace ThunderSwap

/-! ## Bytes and hex strings (src/src/utils/crypto.ts) -/

/-- Value of one hex digit. -/
def hexVal (c : Char) : Option Nat :=
  if '0' ≤ c ∧ c ≤ '9' then some (c.toNat - '0'.toNat)
  else if 'a' ≤ c ∧ c ≤ 'f' then some (c.toNat - 'a'.toNat + 10)
  else if 'A' ≤ c ∧ c ≤ 'F' then some (c.toNat - 'A'.toNat + 10)
  else none

/-- Node `Buffer.from(hex, 'hex')`: decode hex pairs from the left, stopping at
the first pair that is not two hex digits (a trailing odd digit is dropped). -/
def hexDecode : List Char → List Nat
  | c1 :: c2 :: rest =>
    match hexVal c1, hexVal c2 with
    | some h, some l => (16 * h + l) :: hexDecode rest
    | _, _ => []
  | _ => []

/-- Hex digit test, matching the character class `[0-9a-fA-F]` of the sources'
regular expressions. -/
def isHexDigit (c : Char) : Bool :=
  (hexVal c).isSome

/-- Test for the sources' `/^[0-9a-fA-F]*$/`-style checks over a whole string. -/
def allHexDigits (s : List Char) : Bool :=
  s.all isHexDigit

/-! ## Bitcoin script encoding (bitcoinjs-lib `script.compile`)

Only the opcodes the HTLC scripts use are named.  `compile` reproduces the
library's minimal-push policy (`asMinimalOP`): an empty buffer compiles to
`OP_0`, a single byte `1..16` to `OP_1..OP_16`, a single byte `0x81` to
`OP_1NEGATE`, and any other buffer of fewer than `0x4c` bytes to a direct
length-prefixed push. -/

def OP_0 : Nat := 0x00
def OP_PUSHDATA1 : Nat := 0x4c
def OP_1NEGATE : Nat := 0x4f
def OP_RESERVED : Nat := 0x50
def OP_1 : Nat := 0x51
def OP_IF : Nat := 0x63
def OP_ELSE : Nat := 0x67
def OP_ENDIF : Nat := 0x68
def OP_DROP : Nat := 0x75
def OP_EQUALVERIFY : Nat := 0x88
def OP_SHA256 : Nat := 0xa8
def OP_CHECKSIG : Nat := 0xac
def OP_CHECKLOCKTIMEVERIFY : Nat := 0xb1

/-- A chunk handed to `bitcoin.script.compile`: either a raw opcode or a data
push (a `Buffer` in the sources). -/
inductive ScriptChunk where
  | op (code : Nat)
  | data (bytes : List Nat)
deriving Repr, DecidableEq

/-- Encoding of one chunk under bitcoinjs-lib's minimal-push rules. -/
def compileChunk : ScriptChunk → List Nat
  | .op code => [code]
  | .data bytes =>
    if bytes.length = 0 then [OP_0]
    else if h : bytes.length = 1 then
      let b := bytes.head (by intro hn; simp [hn] at h)
      if 1 ≤ b ∧ b ≤ 16 then [OP_RESERVED + b]
      else if b = 0x81 then [OP_1NEGATE]
      else bytes.length :: bytes
    else if bytes.length < 0x4c then bytes.length :: bytes
    else if bytes.length ≤ 0xff then [OP_PUSHDATA1, bytes.length] ++ bytes
    else bytes.length :: bytes

/-- bitcoinjs-lib `script.compile` over a chunk list. -/
def compile (chunks : List ScriptChunk) : List Nat :=
  chunks.flatMap compileChunk

/-- Little-endian byte expansion of a natural number (empty for zero). -/
def natLEBytes (n : Nat) : List Nat :=
  if h : n = 0 then []
  else (n % 256) :: natLEBytes (n / 256)
decreasing_by exact Nat.div_lt_self (Nat.pos_of_ne_zero h) (by norm_num)

/-- bitcoinjs-lib `script.number.encode`: minimal CScriptNum encoding, little
endian with a sign bit in the top byte. -/
def scriptNumEncode (n : Int) : List Nat :=
  if n = 0 then []
  else
    let bs := natLEBytes n.natAbs
    let top := bs.getLast!
    if 0x80 ≤ top then bs ++ [if n < 0 then 0x80 else 0x00]
    else if n < 0 then bs.dropLast ++ [top + 0x80]
    else bs

/-- Success test for `Except` results. -/
def isOk {ε α : Type} : Except ε α → Bool
  | .ok _ => true
  | .error _ => false

theorem isOk_ok {ε α : Type} (a : α) : isOk (ε := ε) (.ok a) = true := rfl

theorem isOk_error {ε α : Type} (e : ε) : isOk (α := α) (.error e) = false := rfl

/-! ## Coin selection (src/src/bitcoin/utxo_utils.ts)

`selectUtxos` sorts the spendable set by descending value (JavaScript's stable
`sort((a, b) => b.valueSat - a.valueSat)`, modelled by Mathlib's stable
insertion sort) and greedily accumulates inputs, returning on the first prefix
that either leaves change at or above the dust limit (two-output split) or
covers amount plus the one-output fee exactly enough (change forfeited to fee,
one-output split).  Fee rates are JavaScript numbers fed to `Math.ceil`,
modelled as rationals with `Int.ceil`. -/

def SATS_PER_BTC : Nat := 100000000
def DUST_LIMIT_SAT : Int := 330
def DUST_LIMIT_P2WPKH_SAT : Int := 546
def TX_OVERHEAD_VBYTES : Nat := 10
def P2TR_INPUT_VBYTES : Nat := 58
def P2TR_OUTPUT_VBYTES : Nat := 43
def P2WPKH_INPUT_VBYTES : Nat := 68
def P2WPKH_OUTPUT_VBYTES : Nat := 31

structure SpendableUtxo where
  txid : List Char
  vout : Nat
  valueSat : Int
deriving Repr, DecidableEq

inductive SelectError where
  | insufficientFunds
deriving Repr, DecidableEq

structure Selection where
  selected : List SpendableUtxo
  feeSat : Int
  changeSat : Int
deriving Repr, DecidableEq

/-- `Math.ceil(vbytes * feeRate)` for a vbyte count and a sats-per-vbyte rate. -/
def ceilFee (feeRate : ℚ) (vbytes : Nat) : Int :=
  ⌈(vbytes : ℚ) * feeRate⌉

/-- Total value of a UTXO list. -/
def listValue (l : List SpendableUtxo) : Int :=
  (l.map (·.valueSat)).sum

/-- Descending stable sort by value, the model of
`[...utxos].sort((a, b) => b.valueSat - a.valueSat)`. -/
def sortByValueDesc (utxos : List SpendableUtxo) : List SpendableUtxo :=
  utxos.insertionSort (fun a b => b.valueSat ≤ a.valueSat)

/-- The greedy accumulation loop of `selectUtxos`, with the already-selected
inputs and their running total made explicit. -/
def selectGo (amountSat : Int) (feeRate : ℚ) (inputVbytes outputVbytes : Nat)
    (dustLimit : Int) :
    List SpendableUtxo → List SpendableUtxo → Int → Except SelectError Selection
  | [], _, _ => .error .insufficientFunds
  | utxo :: rest, sel, total =>
    let sel' := sel ++ [utxo]
    let total' := total + utxo.valueSat
    let feeTwoOutputs :=
      ceilFee feeRate (TX_OVERHEAD_VBYTES + sel'.length * inputVbytes + 2 * outputVbytes)
    let changeTwo := total' - amountSat - feeTwoOutputs
    if dustLimit ≤ changeTwo then
      .ok { selected := sel', feeSat := feeTwoOutputs, changeSat := changeTwo }
    else
      let feeOneOutput :=
        ceilFee feeRate (TX_OVERHEAD_VBYTES + sel'.length * inputVbytes + outputVbytes)
      let changeOne := total' - amountSat - feeOneOutput
      if 0 ≤ changeOne then
        .ok { selected := sel', feeSat := feeOneOutput, changeSat := 0 }
      else
        selectGo amountSat feeRate inputVbytes outputVbytes dustLimit rest sel' total'

/-- src/src/bitcoin/utxo_utils.ts `selectUtxos`. -/
def selectUtxos (utxos : List SpendableUtxo) (amountSat : Int) (feeRate : ℚ)
    (inputVbytes outputVbytes : Nat) (dustLimit : Int := DUST_LIMIT_SAT) :
    Except SelectError Selection :=
  selectGo amountSat feeRate inputVbytes outputVbytes dustLimit
    (sortByValueDesc utxos) [] 0

/-- `selectUtxosP2TR`: the P2TR specialization used by the deposit builder. -/
def selectUtxosP2TR (utxos : List SpendableUtxo) (amountSat : Int) (feeRate : ℚ) :
    Except SelectError Selection :=
  selectUtxos utxos amountSat feeRate P2TR_INPUT_VBYTES P2TR_OUTPUT_VBYTES

/-- The one-output fee charged when `k` inputs are selected: the "minimal fee"
for a selection of that size (any successful split pays at least this). -/
def oneOutputFee (feeRate : ℚ) (inputVbytes outputVbytes : Nat) (k : Nat) : Int :=
  ceilFee feeRate (TX_OVERHEAD_VBYTES + k * inputVbytes + outputVbytes)

/-- Value of the `k` first (largest) entries of the descending-sorted set. -/
def takeValue (l : List SpendableUtxo) (k : Nat) : Int :=
  listValue (l.take k)

/-! ## HTLC contract builder, segwit-v0 variant (src/bitcoin/htlc.ts)

`buildHtlcRedeemScript` takes hex strings, validates them, compiles the
two-branch redeem script and wraps its SHA-256 in a P2WSH scriptPubKey.  The
bech32 address string produced by `bitcoin.payments.p2wsh` is in bijection with
the scriptPubKey (library code), so the model carries the scriptPubKey as the
address' content.  SHA-256 itself is the node `crypto` library, passed in as a
function parameter. -/

inductive HtlcError where
  | invalidHash
  | invalidLpPubkey
  | invalidUserPubkey
deriving Repr, DecidableEq

structure HTLCBuildResult where
  redeemScript : List Nat
  /-- scriptPubKey content of the returned `p2wshAddress`. -/
  outputScript : List Nat
deriving Repr, DecidableEq

/-- `/^[0-9a-fA-F]{64}$/.test(H_hex)`. -/
def isHex64 (s : List Char) : Bool :=
  s.length = 64 && allHexDigits s

/-- The source's pubkey validation: exactly 66 characters and a literal
prefix test `startsWith('02') || startsWith('03')` (hexness of the remaining
characters is not checked). -/
def isPubkeyStr (s : List Char) : Bool :=
  s.length = 66 && (s.take 2 = ['0', '2'] || s.take 2 = ['0', '3'])

/-- The chunk list compiled into the HTLC redeem script. -/
def htlcChunks (H lpPubkey userPubkey : List Nat) (tLock : Int) : List ScriptChunk :=
  [.op OP_IF,
   .op OP_SHA256, .data H, .op OP_EQUALVERIFY, .data lpPubkey, .op OP_CHECKSIG,
   .op OP_ELSE,
   .data (scriptNumEncode tLock), .op OP_CHECKLOCKTIMEVERIFY, .op OP_DROP,
   .data userPubkey, .op OP_CHECKSIG,
   .op OP_ENDIF]

/-- P2WSH wrap: `bitcoin.payments.p2wsh` emits `OP_0 <sha256(script)>`. -/
def p2wshOutput (sha256 : List Nat → List Nat) (script : List Nat) : List Nat :=
  compile [.op OP_0, .data (sha256 script)]

/-- src/bitcoin/htlc.ts `buildHtlcRedeemScript`. -/
def buildHtlcRedeemScript (sha256 : List Nat → List Nat)
    (H_hex lpPubkeyHex userPubkeyHex : List Char) (tLock : Int) :
    Except HtlcError HTLCBuildResult :=
  if ¬ isHex64 H_hex then .error .invalidHash
  else if ¬ isPubkeyStr lpPubkeyHex then .error .invalidLpPubkey
  else if ¬ isPubkeyStr userPubkeyHex then .error .invalidUserPubkey
  else
    let script := compile (htlcChunks (hexDecode H_hex) (hexDecode lpPubkeyHex)
      (hexDecode userPubkeyHex) tLock)
    .ok { redeemScript := script, outputScript := p2wshOutput sha256 script }

/-- Modelled from the spec: the round-trip reconstruction
`reconstruct(contract_parameters) == contract.output_script` for the segwit-v0
variant, recomputing the redeem script from the shared parameters and wrapping
its SHA-256 as a P2WSH scriptPubKey. -/
def reconstructP2WSHScriptPubKey (sha256 : List Nat → List Nat)
    (H_hex lpPubkeyHex userPubkeyHex : List Char) (tLock : Int) : List Nat :=
  p2wshOutput sha256 (compile (htlcChunks (hexDecode H_hex) (hexDecode lpPubkeyHex)
    (hexDecode userPubkeyHex) tLock))

/-! ## HTLC contract builder, taproot variant

src/bitcoin/htlc_p2tr.ts is absent from the sources (only its test
src/src/bitcoin/htlc_p2tr.test.ts and its callers remain), so the builder is
modelled from the specification, §4.1: claim leaf
`OP_SHA256 <H> OP_EQUALVERIFY <claim_x_only> OP_CHECKSIG`, refund leaf
`<timelock> OP_CHECKLOCKTIMEVERIFY OP_DROP <refund_x_only> OP_CHECKSIG`,
x-only pubkeys obtained by dropping the parity byte of the 33-byte compressed
point, output key a BIP341 tweak of an internal key by the Merkle root of the
two leaves.  The tagged-hash and tweak primitives are `bitcoinjs-lib`/libsecp
code and enter as parameters. -/

structure TaprootCrypto where
  sha256 : List Nat → List Nat
  tapLeafHash : List Nat → List Nat
  tapBranch : List Nat → List Nat → List Nat
  tweak : List Nat → List Nat → List Nat
  internalKey : List Nat

structure P2TRHTLCTemplate where
  payment_hash : List Char
  lp_pubkey : List Char
  user_pubkey : List Char
  cltv_expiry : Int
deriving Repr, DecidableEq

structure P2TRHTLCResult where
  claimLeaf : List Nat
  refundLeaf : List Nat
  internal_key : List Nat
  /-- scriptPubKey content of the returned `taproot_address`. -/
  outputScript : List Nat
deriving Repr, DecidableEq

/-- Modelled from the spec: x-only form of a compressed pubkey (32 bytes,
parity byte dropped). -/
def xOnly (pubkey : List Nat) : List Nat :=
  pubkey.drop 1

/-- Modelled from the spec: the claim tapscript leaf. -/
def buildClaimTapscript (H lpPubkey : List Nat) : List Nat :=
  compile [.op OP_SHA256, .data H, .op OP_EQUALVERIFY, .data (xOnly lpPubkey),
    .op OP_CHECKSIG]

/-- Modelled from the spec: the refund tapscript leaf (CLTV semantics per the
spec's resolution of the CLTV/CSV open question). -/
def buildRefundTapscript (tLock : Int) (userPubkey : List Nat) : List Nat :=
  compile [.data (scriptNumEncode tLock), .op OP_CHECKLOCKTIMEVERIFY, .op OP_DROP,
    .data (xOnly userPubkey), .op OP_CHECKSIG]

/-- Modelled from the spec: taproot output script `OP_1 <tweaked output key>`
for the two-leaf HTLC tree. -/
def p2trOutputFromParams (env : TaprootCrypto)
    (H lpPubkey userPubkey : List Nat) (tLock : Int) : List Nat :=
  let claimLeaf := buildClaimTapscript H lpPubkey
  let refundLeaf := buildRefundTapscript tLock userPubkey
  let merkleRoot := env.tapBranch (env.tapLeafHash claimLeaf) (env.tapLeafHash refundLeaf)
  let outputKey := env.tweak env.internalKey merkleRoot
  compile [.op OP_1, .data outputKey]

/-- Modelled from the spec: `buildP2TRHTLC(paymentHash, lpPubkey, userPubkey,
cltvExpiry)`, validating inputs as the segwit builder does and deriving the
taproot output encoding. -/
def buildP2TRHTLC (env : TaprootCrypto)
    (H_hex lpPubkeyHex userPubkeyHex : List Char) (tLock : Int) :
    Except HtlcError P2TRHTLCResult :=
  if ¬ isHex64 H_hex then .error .invalidHash
  else if ¬ isPubkeyStr lpPubkeyHex then .error .invalidLpPubkey
  else if ¬ isPubkeyStr userPubkeyHex then .error .invalidUserPubkey
  else
    let H := hexDecode H_hex
    let lp := hexDecode lpPubkeyHex
    let user := hexDecode userPubkeyHex
    .ok { claimLeaf := buildClaimTapscript H lp,
          refundLeaf := buildRefundTapscript tLock user,
          internal_key := env.internalKey,
          outputScript := p2trOutputFromParams env H lp user tLock }

/-- Modelled from the spec: `reconstructP2TRScriptPubKey(template)`, the pure
recomputation of the taproot scriptPubKey from the shared parameters. -/
def reconstructP2TRScriptPubKey (env : TaprootCrypto) (t : P2TRHTLCTemplate) :
    List Nat :=
  p2trOutputFromParams env (hexDecode t.payment_hash) (hexDecode t.lp_pubkey)
    (hexDecode t.user_pubkey) t.cltv_expiry

/-! ## Claim transaction builder (src/src/bitcoin/claim.ts)

`claimWithPreimage` validates the preimage hex format, parses the WIF, builds
a version-2 transaction spending the funding UTXO with sequence `0xffffffff`,
pays the LP claim address the UTXO value minus the flat 1,000-sat fee estimate
(failing when the remainder is at or below 1,000 sats), attaches the witness
`[LP_sig, preimage, OP_TRUE, redeemScript]` and broadcasts.  The `bitcoinjs`
network switch over the `config.NETWORK` enum is total and only feeds the
address decoder, so it is absorbed into the `toOutputScript` parameter.  The
returned pair carries the list of broadcast attempts so that theorems can
speak about what reaches the node. -/

structure FundingUtxo where
  txid : List Char
  vout : Nat
  value : Int
deriving Repr, DecidableEq

structure KeyPair where
  sign : List Nat → List Nat

structure ClaimEnv where
  parseWif : List Char → Option KeyPair
  toOutputScript : List Char → Option (List Nat)
  sha256hex : List Nat → List Char
  hashForWitnessV0 : Nat → List Nat → Int → Nat → List Nat
  /-- `rpc.sendRawTransaction`: `some txid` on acceptance, `none` on node
  rejection. -/
  broadcastResult : Option (List Char)

inductive ClaimError where
  | invalidPreimageHex
  | invalidWif
  | invalidAddress
  | insufficientFunds
  | broadcastFailed
deriving Repr, DecidableEq

structure ClaimTx where
  version : Nat
  inputTxid : List Char
  inputVout : Nat
  inputSequence : Nat
  outputScript : List Nat
  outputValue : Int
  witness : List (List Nat)
  locktime : Nat
deriving Repr, DecidableEq

structure ClaimResult where
  txid : List Char
  tx : ClaimTx
deriving Repr, DecidableEq

inductive ClaimEffect where
  | broadcast (tx : ClaimTx)
deriving Repr, DecidableEq

def SIGHASH_ALL : Nat := 0x01

/-- src/src/bitcoin/claim.ts `claimWithPreimage`. -/
def claimWithPreimage (env : ClaimEnv) (utxo : FundingUtxo) (redeemScript : List Nat)
    (preimageHex : List Char) (lpWif lpClaimAddress : List Char) :
    Except ClaimError ClaimResult × List ClaimEffect :=
  if ¬ (allHexDigits preimageHex ∧ preimageHex.length ≠ 0) then
    (.error .invalidPreimageHex, [])
  else
    let preimage := hexDecode preimageHex
    match env.parseWif lpWif with
    | none => (.error .invalidWif, [])
    | some lpKeyPair =>
      match env.toOutputScript lpClaimAddress with
      | none => (.error .invalidAddress, [])
      | some claimScript =>
        let estimatedFee : Int := 1000
        let outputValue := utxo.value - estimatedFee
        if outputValue ≤ 1000 then (.error .insufficientFunds, [])
        else
          let signatureHash := env.hashForWitnessV0 0 redeemScript utxo.value SIGHASH_ALL
          let signatureWithHashType := lpKeyPair.sign signatureHash ++ [SIGHASH_ALL]
          let tx : ClaimTx :=
            { version := 2
              inputTxid := utxo.txid
              inputVout := utxo.vout
              inputSequence := 0xffffffff
              outputScript := claimScript
              outputValue := outputValue
              witness := [signatureWithHashType, preimage, [1], redeemScript]
              locktime := 0 }
          match env.broadcastResult with
          | some txid => (.ok { txid := txid, tx := tx }, [.broadcast tx])
          | none => (.error .broadcastFailed, [.broadcast tx])

/-! ## Refund PSBT builder (src/src/bitcoin/refund.ts)

`buildRefundPsbtBase64` builds an unsigned PSBT spending the funding UTXO with
input sequence `0xfffffffe` and transaction locktime equal to the contract's
timelock height, paying the user's refund address the UTXO value minus the
flat 1,000-sat estimate.  The `rpc.getRawTransaction` lookup is wrapped in a
`try`/`catch` that swallows every error and its result is never used
afterwards, so it does not appear in the model. -/

structure RefundEnv where
  toOutputScript : List Char → Option (List Nat)
  sha256 : List Nat → List Nat

inductive RefundError where
  | invalidAddress
  | insufficientFunds
deriving Repr, DecidableEq

structure RefundPsbt where
  inputTxid : List Char
  inputVout : Nat
  inputSequence : Nat
  locktime : Nat
  witnessScript : List Nat
  witnessUtxoScript : List Nat
  witnessUtxoValue : Int
  outputScript : List Nat
  outputValue : Int
deriving Repr, DecidableEq

/-- src/src/bitcoin/refund.ts `buildRefundPsbtBase64`. -/
def buildRefundPsbtBase64 (env : RefundEnv) (utxo : FundingUtxo)
    (redeemScript : List Nat) (userRefundAddress : List Char) (tLockHeight : Nat) :
    Except RefundError RefundPsbt :=
  match env.toOutputScript userRefundAddress with
  | none => .error .invalidAddress
  | some userOutputScript =>
    let estimatedFee : Int := 1000
    let outputValue := utxo.value - estimatedFee
    if outputValue ≤ 1000 then .error .insufficientFunds
    else
      let witnessScriptPubkey := compile [.op OP_0, .data (env.sha256 redeemScript)]
      .ok { inputTxid := utxo.txid
            inputVout := utxo.vout
            inputSequence := 0xfffffffe
            locktime := tLockHeight
            witnessScript := redeemScript
            witnessUtxoScript := witnessScriptPubkey
            witnessUtxoValue := utxo.value
            outputScript := userOutputScript
            outputValue := outputValue }

/-! ## The legacy swap orchestrator's claim phase (src/src/swap/orchestrator.ts)

`runSwap` reaches its claim step once the payment status polling loop reports
success together with a preimage.  Step 7 recomputes `sha256hex` of the
decoded preimage and aborts when it differs from the invoice's payment hash;
only then is `claimWithPreimage` invoked (step 8, which broadcasts). -/

inductive SwapClaimError where
  | preimageVerificationFailed
  | claimError (e : ClaimError)
deriving Repr, DecidableEq

/-- Steps 7-8 of `runSwap` (lines 571-591): preimage verification followed by
the claim build/broadcast. -/
def runSwapClaimPhase (env : ClaimEnv) (H : List Char) (funding : FundingUtxo)
    (redeemScript : List Nat) (preimage : List Char) (wif lpClaimAddress : List Char) :
    Except SwapClaimError ClaimResult × List ClaimEffect :=
  let preimageHash := env.sha256hex (hexDecode preimage)
  if preimageHash ≠ H then (.error .preimageVerificationFailed, [])
  else
    match claimWithPreimage env funding redeemScript preimage wif lpClaimAddress with
    | (.ok r, effs) => (.ok r, effs)
    | (.error e, effs) => (.error (.claimError e), effs)

/-! ## USER deposit flow (src/src/swap/orchestrator.ts `runDeposit`)

The flow is embedded as a pure function from an environment of collaborator
responses (the injected `RunDepositDeps`) to a result together with the
ordered list of collaborator interactions (network calls, persistence and
handoff publishes).  Collaborator calls whose failure no claim depends on are
given total response values; the explicitly checked branch points (missing
`htlc_p2tr_script_pubkey`, address derivation from the received script) keep
their failure paths. -/

structure SubmarineRequest where
  invoice : List Char
  userRefundPubkeyHex : List Char
deriving Repr, DecidableEq

structure FundingData where
  fundingTxid : List Char
  fundingVout : Nat
deriving Repr, DecidableEq

structure RgbInvoiceHtlcResponse where
  invoice : List Char
  htlc_p2tr_script_pubkey : Option (List Char)
  htlc_p2tr_address : Option (List Char)
  t_lock : Option Int
deriving Repr, DecidableEq

structure InvoiceHodlResponse where
  invoice : List Char
  payment_secret : List Char
deriving Repr, DecidableEq

structure DepositSendResult where
  txid : List Char
  fee_sat : Int
  input_count : Nat
  change_sat : Int
  change_address : List Char
deriving Repr, DecidableEq

structure ConfirmedFunding where
  txid : List Char
  vout : Nat
  value : Int
deriving Repr, DecidableEq

structure DepositEnv where
  cfg_HODL_EXPIRY_SEC : Int
  cfg_LOCKTIME_BLOCKS : Int
  cfg_MIN_CONFS : Nat
  /-- The 64-char hex string of `randomBytes(32)`. -/
  preimage : List Char
  sha256hex : List Nat → List Char
  invoiceResp : InvoiceHodlResponse
  rgbInvoiceResp : RgbInvoiceHtlcResponse
  /-- `bitcoin.address.fromOutputScript` under the configured network; `none`
  models the library throwing on an unencodable script. -/
  fromOutputScript : List Nat → Option (List Char)
  depositResult : DepositSendResult
  funding : ConfirmedFunding
  rgbSendTxid : List Char

inductive DepositError where
  | invalidAmount
  | amountBelowDustLimit
  | unsafeTimelockMargin
  | missingScriptPubkey
  | addressDerivationFailed
deriving Repr, DecidableEq

inductive DepositEffect where
  | invoiceHodl (paymentHash : List Char) (expirySec amtMsat : Int)
  | persist (paymentHash preimage : List Char)
  | publishSubmarine (req : SubmarineRequest)
  | waitRgbInvoice
  | warnAddressMismatch (server derived : List Char)
  | sendDeposit (address : List Char) (amountSat : Int)
  | waitFunding (address : List Char) (minConfs : Nat)
  | sendAsset (invoice : List Char)
  | waitTxConfirmation (txid : List Char) (minConfs : Nat)
  | refreshTransfers
  | publishFunding (data : FundingData)
deriving Repr, DecidableEq

structure DepositFlowResult where
  payment_hash : List Char
  preimage : List Char
  invoice : List Char
  amount_msat : Int
  expiry_sec : Int
  htlc_p2tr_address : List Char
  htlc_p2tr_script_pubkey : List Char
  t_lock : Option Int
  funding : ConfirmedFunding
deriving Repr, DecidableEq

def BLOCK_TARGET_SEC : Int := 600
def TIMECUSHION_SEC : Int := 3600

/-- src/src/swap/orchestrator.ts `runDeposit` (the USER deposit state machine,
up to and including the funding-data publish). -/
def runDeposit (env : DepositEnv) (amountSat : Int) (userRefundPubkeyHex : List Char) :
    Except DepositError DepositFlowResult × List DepositEffect :=
  if amountSat ≤ 0 then (.error .invalidAmount, [])
  else if amountSat < 330 then (.error .amountBelowDustLimit, [])
  else
    let expirySec := env.cfg_HODL_EXPIRY_SEC
    let estimatedTimelockSec := env.cfg_LOCKTIME_BLOCKS * BLOCK_TARGET_SEC
    if estimatedTimelockSec ≤ expirySec + TIMECUSHION_SEC then
      (.error .unsafeTimelockMargin, [])
    else
      let H := env.sha256hex (hexDecode env.preimage)
      let amountMsat := amountSat * 1000
      let effs1 : List DepositEffect :=
        [.invoiceHodl H expirySec amountMsat,
         .persist H env.preimage,
         .publishSubmarine { invoice := env.invoiceResp.invoice,
                             userRefundPubkeyHex := userRefundPubkeyHex },
         .waitRgbInvoice]
      match env.rgbInvoiceResp.htlc_p2tr_script_pubkey with
      | none => (.error .missingScriptPubkey, effs1)
      | some htlcScriptPubKeyHex =>
        match env.fromOutputScript (hexDecode htlcScriptPubKeyHex) with
        | none => (.error .addressDerivationFailed, effs1)
        | some derivedAddress =>
          let warnEffs : List DepositEffect :=
            match env.rgbInvoiceResp.htlc_p2tr_address with
            | some server =>
              if server ≠ derivedAddress then [.warnAddressMismatch server derivedAddress]
              else []
            | none => []
          let htlcAddress := env.rgbInvoiceResp.htlc_p2tr_address.getD derivedAddress
          let tLock := env.rgbInvoiceResp.t_lock
          let effs2 := effs1 ++ warnEffs ++
            [.sendDeposit htlcAddress amountSat,
             .waitFunding htlcAddress env.cfg_MIN_CONFS,
             .sendAsset env.rgbInvoiceResp.invoice,
             .waitTxConfirmation env.rgbSendTxid env.cfg_MIN_CONFS,
             .refreshTransfers,
             .publishFunding { fundingTxid := env.funding.txid,
                               fundingVout := env.funding.vout }]
          (.ok { payment_hash := H
                 preimage := env.preimage
                 invoice := env.invoiceResp.invoice
                 amount_msat := amountMsat
                 expiry_sec := expirySec
                 htlc_p2tr_address := htlcAddress
                 htlc_p2tr_script_pubkey := htlcScriptPubKeyHex
                 t_lock := tLock
                 funding := env.funding }, effs2)

/-! ## Handoff channel (src/utils/comm-server.ts)

The USER-side HTTP server keeps one overwritable in-memory slot per artifact
(`submarineRequest`, `rgbInvoiceHtlcResponse`, `fundingData`).  A request is
modelled as the dispatched method/route pair with the `JSON.parse` outcome of
its body (the parser is platform code); the handler returns the response and
the new slot state.  A GET on an empty slot answers HTTP 200 with the JSON
object `{ error: "No ... available yet" }`; a GET on a filled slot answers
HTTP 200 with the slot's current value. -/

structure CommState where
  submarineRequest : Option SubmarineRequest
  rgbInvoiceHtlcResponse : Option RgbInvoiceHtlcResponse
  fundingData : Option FundingData
deriving Repr, DecidableEq

def initialCommState : CommState :=
  { submarineRequest := none, rgbInvoiceHtlcResponse := none, fundingData := none }

inductive CommRequest where
  | postSubmarine (parsed : Option SubmarineRequest)
  | getSubmarine
  | postRgbInvoiceHtlc (parsed : Option RgbInvoiceHtlcResponse)
  | getRgbInvoiceHtlc
  | postFunding (parsed : Option FundingData)
  | getFunding
  | otherRoute
deriving Repr, DecidableEq

/-- The JSON body of a response.  `errorNotAvailable` stands for the literal
`{ error: "No ... available yet; waiting for ... publish." }` objects and
`errorInvalidJson` for `{ error: "Invalid JSON" }`. -/
inductive CommBody where
  | success
  | submarine (req : SubmarineRequest)
  | rgbInvoiceHtlc (resp : RgbInvoiceHtlcResponse)
  | funding (data : FundingData)
  | errorNotAvailable
  | errorInvalidJson
  | notFound
deriving Repr, DecidableEq

structure CommResponse where
  status : Nat
  body : CommBody
deriving Repr, DecidableEq

/-- The request handler of the comm server (src/utils/comm-server.ts lines
22-110). -/
def handleComm (st : CommState) : CommRequest → CommResponse × CommState
  | .postSubmarine (some req) =>
    ({ status := 200, body := .success }, { st with submarineRequest := some req })
  | .postSubmarine none => ({ status := 400, body := .errorInvalidJson }, st)
  | .getSubmarine =>
    match st.submarineRequest with
    | some req => ({ status := 200, body := .submarine req }, st)
    | none => ({ status := 200, body := .errorNotAvailable }, st)
  | .postRgbInvoiceHtlc (some resp) =>
    ({ status := 200, body := .success }, { st with rgbInvoiceHtlcResponse := some resp })
  | .postRgbInvoiceHtlc none => ({ status := 400, body := .errorInvalidJson }, st)
  | .getRgbInvoiceHtlc =>
    match st.rgbInvoiceHtlcResponse with
    | some resp => ({ status := 200, body := .rgbInvoiceHtlc resp }, st)
    | none => ({ status := 200, body := .errorNotAvailable }, st)
  | .postFunding (some data) =>
    ({ status := 200, body := .success }, { st with fundingData := some data })
  | .postFunding none => ({ status := 400, body := .errorInvalidJson }, st)
  | .getFunding =>
    match st.fundingData with
    | some data => ({ status := 200, body := .funding data }, st)
    | none => ({ status := 200, body := .errorNotAvailable }, st)
  | .otherRoute => ({ status := 404, body := .notFound }, st)

/-- `publishSubmarineRequest`: the USER-side in-process setter for the same
slot the server serves. -/
def publishSubmarineRequest (st : CommState) (data : SubmarineRequest) : CommState :=
  { st with submarineRequest := some data }

/-- `publishFundingData`. -/
def publishFundingData (st : CommState) (data : FundingData) : CommState :=
  { st with fundingData := some data }

/-- A response is an empty/no-content signal when it carries HTTP 204 or an
empty body; the comm server's "not yet available" answer is instead an error
payload. -/
def isNoContent (r : CommResponse) : Bool :=
  r.status = 204

/-- The response body is an error-descriptor object (`{ error: ... }`). -/
def isErrorPayload (r : CommResponse) : Bool :=
  match r.body with
  | .errorNotAvailable => true
  | .errorInvalidJson => true
  | _ => false

/-! ## Sample environments

Concrete instantiations of the external-library parameters, used by witness
and counterexample theorems.  The function fields stand in for library code,
so any concrete choice exercises the repository's own logic. -/

def sampleKeyPair : KeyPair :=
  { sign := fun _ => List.replicate 70 0x30 }

def sampleAddressScript : List Nat :=
  OP_1 :: 0x20 :: List.replicate 32 0x07

def sampleClaimEnv : ClaimEnv :=
  { parseWif := fun _ => some sampleKeyPair
    toOutputScript := fun _ => some sampleAddressScript
    sha256hex := fun _ => List.replicate 64 'a'
    hashForWitnessV0 := fun _ _ _ _ => List.replicate 32 0x05
    broadcastResult := some (List.replicate 64 'b') }

def sampleRefundEnv : RefundEnv :=
  { toOutputScript := fun _ => some sampleAddressScript
    sha256 := fun _ => List.replicate 32 0x09 }

def sampleTxid : List Char :=
  List.replicate 64 'c'

def sampleWif : List Char :=
  ['K', 'w']

def sampleAddr : List Char :=
  ['b', 'c', '1', 'q']

def sampleRedeemScript : List Nat :=
  [OP_IF, OP_ENDIF]

/-- A valid 64-hex-char preimage string. -/
def samplePreimageHex : List Char :=
  List.replicate 64 'e'

/-- A deposit environment whose timelock margin is unsafe (6 blocks at the
assumed 600-second interval against a one-day invoice expiry). -/
def badMarginDepositEnv : DepositEnv :=
  { cfg_HODL_EXPIRY_SEC := 86400
    cfg_LOCKTIME_BLOCKS := 6
    cfg_MIN_CONFS := 1
    preimage := samplePreimageHex
    sha256hex := fun _ => List.replicate 64 'a'
    invoiceResp := { invoice := ['l', 'n'], payment_secret := ['p', 's'] }
    rgbInvoiceResp :=
      { invoice := ['r', 'g', 'b']
        htlc_p2tr_script_pubkey := some ['5', '1']
        htlc_p2tr_address := some ['p', 'e', 'e', 'r']
        t_lock := some 500 }
    fromOutputScript := fun _ => some ['d', 'r', 'v']
    depositResult :=
      { txid := ['d'], fee_sat := 50, input_count := 1, change_sat := 0,
        change_address := ['c'] }
    funding := { txid := ['f'], vout := 0, value := 12345 }
    rgbSendTxid := ['t'] }

/-- A deposit environment with a safe timelock margin (300 blocks) whose
counterparty supplies an HTLC address that disagrees with the address derived
locally from the supplied script pubkey. -/
def mismatchDepositEnv : DepositEnv :=
  { badMarginDepositEnv with cfg_LOCKTIME_BLOCKS := 300 }

/-! ## C5 -/

/-- C5: every refund transaction built by `buildRefundPsbtBase64` carries
locktime equal to the contract's timelock height and input sequence
`0xFFFFFFFE` (CLTV enabled), while every claim transaction built by
`claimWithPreimage` carries input sequence `0xFFFFFFFF` and locktime `0`, a
combination that does not require timelock maturity. -/
theorem refund_locktime_claim_sequence :
    (∀ (env : RefundEnv) (utxo : FundingUtxo) (redeemScript : List Nat)
        (addr : List Char) (tLockHeight : Nat) (r : RefundPsbt),
      buildRefundPsbtBase64 env utxo redeemScript addr tLockHeight = .ok r →
        r.locktime = tLockHeight ∧ r.inputSequence = 0xfffffffe) ∧
    (∀ (env : ClaimEnv) (utxo : FundingUtxo) (redeemScript : List Nat)
        (preimageHex wif addr : List Char) (res : ClaimResult)
        (effs : List ClaimEffect),
      claimWithPreimage env utxo redeemScript preimageHex wif addr = (.ok res, effs) →
        res.tx.inputSequence = 0xffffffff ∧ res.tx.locktime = 0) := by
  constructor
  · intro env utxo redeemScript addr tLockHeight r h
    unfold buildRefundPsbtBase64 at h
    split at h
    · exact absurd h (by simp)
    · dsimp only at h
      split at h
      · exact absurd h (by simp)
      · simp only [Except.ok.injEq] at h
        subst h
        exact ⟨rfl, rfl⟩
  · intro env utxo redeemScript preimageHex wif addr res effs h
    unfold claimWithPreimage at h
    split at h
    · exact absurd h (by simp)
    · split at h
      · exact absurd h (by simp)
      · split at h
        · exact absurd h (by simp)
        · dsimp only at h
          split at h
          · exact absurd h (by simp)
          · split at h
            · simp only [Prod.mk.injEq, Except.ok.injEq] at h
              obtain ⟨h1, h2⟩ := h
              subst h1
              exact ⟨rfl, rfl⟩
            · exact absurd h (by simp)

/-- C5 witness: concrete refund and claim builds reaching both conclusions. -/
theorem refund_locktime_claim_sequence_witness :
    ((buildRefundPsbtBase64 sampleRefundEnv ⟨sampleTxid, 0, 10000⟩
        sampleRedeemScript sampleAddr 500).map RefundPsbt.locktime = .ok 500) ∧
    ((claimWithPreimage sampleClaimEnv ⟨sampleTxid, 0, 10000⟩ sampleRedeemScript
        samplePreimageHex sampleWif sampleAddr).fst.map
        (fun r => r.tx.inputSequence) = .ok 0xffffffff) := by
  have h1 := refund_locktime_claim_sequence.1 sampleRefundEnv
    ⟨sampleTxid, 0, 10000⟩ sampleRedeemScript sampleAddr 500
  have h2 := refund_locktime_claim_sequence.2 sampleClaimEnv
    ⟨sampleTxid, 0, 10000⟩ sampleRedeemScript samplePreimageHex sampleWif sampleAddr
  constructor
  · cases hb : buildRefundPsbtBase64 sampleRefundEnv ⟨sampleTxid, 0, 10000⟩
      sampleRedeemScript sampleAddr 500 with
    | error e =>
      have hok : isOk (buildRefundPsbtBase64 sampleRefundEnv ⟨sampleTxid, 0, 10000⟩
          sampleRedeemScript sampleAddr 500) = true := by decide
      rw [hb] at hok
      exact absurd hok (by simp [isOk_error])
    | ok r =>
      simp [Except.map, (h1 r hb).1]
  · cases hf : (claimWithPreimage sampleClaimEnv ⟨sampleTxid, 0, 10000⟩
      sampleRedeemScript samplePreimageHex sampleWif sampleAddr).fst with
    | error e =>
      have hok : isOk (claimWithPreimage sampleClaimEnv ⟨sampleTxid, 0, 10000⟩
          sampleRedeemScript samplePreimageHex sampleWif sampleAddr).fst = true := by decide
      rw [hf] at hok
      exact absurd hok (by simp [isOk_error])
    | ok res =>
      have hpair : claimWithPreimage sampleClaimEnv ⟨sampleTxid, 0, 10000⟩
          sampleRedeemScript samplePreimageHex sampleWif sampleAddr
            = (.ok res, (claimWithPreimage sampleClaimEnv ⟨sampleTxid, 0, 10000⟩
                sampleRedeemScript samplePreimageHex sampleWif sampleAddr).snd) := by
        rw [← hf]
      simp [Except.map, (h2 res _ hpair).1]

/-! ## C8 -/

/-- C8: with the flat 1,000-sat fee estimate of the claim builder, a funding
UTXO of 10,000 sats produces a claim output of exactly 9,000 sats, and a
funding UTXO of 1,200 sats fails with `InsufficientFunds` before any
broadcast (its output value would fall at or below the 1,000-sat floor). -/
theorem claim_fee_arithmetic :
    ∀ (env : ClaimEnv) (txid : List Char) (vout : Nat) (redeemScript : List Nat)
      (preimageHex wif addr : List Char) (kp : KeyPair) (s : List Nat)
      (btxid : List Char),
      allHexDigits preimageHex = true → preimageHex ≠ [] →
      env.parseWif wif = some kp → env.toOutputScript addr = some s →
      env.broadcastResult = some btxid →
      ((claimWithPreimage env ⟨txid, vout, 10000⟩ redeemScript preimageHex wif addr).fst.map
          (fun r => r.tx.outputValue) = .ok 9000) ∧
      (claimWithPreimage env ⟨txid, vout, 1200⟩ redeemScript preimageHex wif addr
          = (.error .insufficientFunds, [])) := by
  intro env txid vout redeemScript preimageHex wif addr kp s btxid hhex hne hwif haddr hbr
  have hlen : preimageHex.length ≠ 0 := by simpa using hne
  constructor
  · unfold claimWithPreimage
    rw [if_neg (by simp [hhex, hlen])]
    simp only [hwif, haddr, hbr]
    norm_num [Except.map]
  · unfold claimWithPreimage
    rw [if_neg (by simp [hhex, hlen])]
    simp only [hwif, haddr, hbr]
    norm_num

/-- C8 witness: the two scenarios run on a concrete environment. -/
theorem claim_fee_arithmetic_witness :
    ((claimWithPreimage sampleClaimEnv ⟨sampleTxid, 0, 10000⟩ sampleRedeemScript
        samplePreimageHex sampleWif sampleAddr).fst.map
        (fun r => r.tx.outputValue) = .ok 9000) ∧
    (claimWithPreimage sampleClaimEnv ⟨sampleTxid, 0, 1200⟩ sampleRedeemScript
        samplePreimageHex sampleWif sampleAddr = (.error .insufficientFunds, [])) :=
  claim_fee_arithmetic sampleClaimEnv sampleTxid 0 sampleRedeemScript samplePreimageHex
    sampleWif sampleAddr sampleKeyPair sampleAddressScript (List.replicate 64 'b')
    (by decide) (by decide) rfl rfl rfl

/-! ## C6 and C10: runDeposit precondition checks -/

/-- C6: whenever the configured `LOCKTIME_BLOCKS` yields an estimated timelock
duration (blocks x 600-second block target) at or below the invoice expiry
plus the one-hour cushion, `runDeposit` fails with `UnsafeTimelockMargin`
before any collaborator interaction (empty effect trace: no invoice creation,
no RPC, no handoff publish).  The amount hypothesis places the run past the
amount validations that precede the margin check. -/
theorem deposit_unsafe_timelock_margin :
    ∀ (env : DepositEnv) (amountSat : Int) (userRefundPubkeyHex : List Char),
      330 ≤ amountSat →
      env.cfg_LOCKTIME_BLOCKS * BLOCK_TARGET_SEC ≤ env.cfg_HODL_EXPIRY_SEC + TIMECUSHION_SEC →
      runDeposit env amountSat userRefundPubkeyHex = (.error .unsafeTimelockMargin, []) := by
  intro env amountSat u h330 hmargin
  unfold runDeposit
  rw [if_neg (by omega), if_neg (by omega)]
  dsimp only
  rw [if_pos hmargin]

/-- C6 witness: a concrete configuration (6 blocks at 600 s = 3,600 s against
a 86,400 s expiry) fails with `UnsafeTimelockMargin` and an empty trace. -/
theorem deposit_unsafe_timelock_margin_witness :
    runDeposit badMarginDepositEnv 1000 ['u'] = (.error .unsafeTimelockMargin, []) :=
  deposit_unsafe_timelock_margin badMarginDepositEnv 1000 ['u'] (by decide) (by decide)

/-- C10: `runDeposit` rejects any requested amount that is not positive and
additionally any amount below 330 sats (the P2TR dust limit), failing before
the invoice is created or any collaborator is contacted (empty effect
trace). -/
theorem deposit_minimum_amount :
    ∀ (env : DepositEnv) (amountSat : Int) (userRefundPubkeyHex : List Char),
      amountSat < 330 →
      runDeposit env amountSat userRefundPubkeyHex =
        (.error (if amountSat ≤ 0 then .invalidAmount else .amountBelowDustLimit), []) := by
  intro env amountSat u h330
  unfold runDeposit
  by_cases h0 : amountSat ≤ 0
  · rw [if_pos h0, if_pos h0]
  · rw [if_neg h0, if_pos h330, if_neg h0]

/-- C10 witness: a 100-sat request fails with the dust-limit error and an
empty trace. -/
theorem deposit_minimum_amount_witness :
    runDeposit badMarginDepositEnv 100 ['u'] = (.error .amountBelowDustLimit, []) := by
  have h := deposit_minimum_amount badMarginDepositEnv 100 ['u'] (by decide)
  simpa using h

/-! ## C2: which address funds the deposit -/

/-- C2 counterexample: in a run where the counterparty supplies both a script
pubkey and an address, and the locally derived address disagrees with the
supplied one, the deposit transaction is sent to the peer-supplied address,
not the locally derived one (the derived address only serves as fallback when
the peer omits the address field).  The mismatch is logged as a warning. -/
theorem deposit_peer_address_counterexample :
    (DepositEffect.sendDeposit ['p', 'e', 'e', 'r'] 1000
        ∈ (runDeposit mismatchDepositEnv 1000 ['u']).snd) ∧
    (DepositEffect.warnAddressMismatch ['p', 'e', 'e', 'r'] ['d', 'r', 'v']
        ∈ (runDeposit mismatchDepositEnv 1000 ['u']).snd) ∧
    (mismatchDepositEnv.fromOutputScript (hexDecode ['5', '1']) = some ['d', 'r', 'v']) ∧
    (mismatchDepositEnv.rgbInvoiceResp.htlc_p2tr_address = some ['p', 'e', 'e', 'r']) ∧
    ¬ (DepositEffect.sendDeposit ['d', 'r', 'v'] 1000
        ∈ (runDeposit mismatchDepositEnv 1000 ['u']).snd) := by
  decide

/-- C2 amended: the address is re-derived locally from the peer-supplied
script pubkey and compared with the peer-supplied address, a mismatch is
logged as a warning, but the peer-supplied address, when present, is the one
passed to the deposit transaction; the locally derived address is used only
when the peer omits the address field. -/
theorem deposit_address_policy :
    ∀ (env : DepositEnv) (amountSat : Int) (userRefundPubkeyHex : List Char)
      (spk : List Char) (derived : List Char),
      330 ≤ amountSat →
      env.cfg_HODL_EXPIRY_SEC + TIMECUSHION_SEC < env.cfg_LOCKTIME_BLOCKS * BLOCK_TARGET_SEC →
      env.rgbInvoiceResp.htlc_p2tr_script_pubkey = some spk →
      env.fromOutputScript (hexDecode spk) = some derived →
      (DepositEffect.sendDeposit (env.rgbInvoiceResp.htlc_p2tr_address.getD derived) amountSat
          ∈ (runDeposit env amountSat userRefundPubkeyHex).snd) ∧
      (∀ server, env.rgbInvoiceResp.htlc_p2tr_address = some server → server ≠ derived →
          DepositEffect.warnAddressMismatch server derived
            ∈ (runDeposit env amountSat userRefundPubkeyHex).snd) := by
  intro env amountSat u spk derived h330 hmargin hspk hder
  unfold runDeposit
  rw [if_neg (by omega), if_neg (by omega)]
  dsimp only
  rw [if_neg (by omega)]
  simp only [hspk, hder]
  constructor
  · simp
  · intro server hserver hne
    simp [hserver, hne]

/-- C2 amended witness: the mismatch environment reaches both conclusions. -/
theorem deposit_address_policy_witness :
    (DepositEffect.sendDeposit
        (mismatchDepositEnv.rgbInvoiceResp.htlc_p2tr_address.getD ['d', 'r', 'v']) 1000
        ∈ (runDeposit mismatchDepositEnv 1000 ['u']).snd) ∧
    (DepositEffect.warnAddressMismatch ['p', 'e', 'e', 'r'] ['d', 'r', 'v']
        ∈ (runDeposit mismatchDepositEnv 1000 ['u']).snd) := by
  have h := deposit_address_policy mismatchDepositEnv 1000 ['u'] ['5', '1'] ['d', 'r', 'v']
    (by decide) (by decide) rfl rfl
  exact ⟨h.1, h.2 ['p', 'e', 'e', 'r'] rfl (by decide)⟩

/-! ## C7: handoff slot semantics -/

/-- Folding a sequence of handled requests through the comm server. -/
def applyPosts (st : CommState) (reqs : List CommRequest) : CommState :=
  reqs.foldl (fun s r => (handleComm s r).snd) st

/-- Helper: a fold of slot-overwriting updates leaves the slot holding the
last written value. -/
theorem foldl_set_getLast {α β : Type} (f : β → α → β) (get : β → Option α)
    (hset : ∀ s a, get (f s a) = some a) :
    ∀ (ds : List α) (h : ds ≠ []) (st : β), get (ds.foldl f st) = some (ds.getLast h)
  | [d], _, st => by simp [hset]
  | d1 :: d2 :: rest, _, st => by
    rw [List.foldl_cons, List.getLast_cons (l := d2 :: rest) (by simp)]
    exact foldl_set_getLast f get hset (d2 :: rest) (by simp) (f st d1)

/-- Helper: a filled submarine slot is served back verbatim. -/
theorem getSubmarine_of_some (st : CommState) (v : SubmarineRequest)
    (h : st.submarineRequest = some v) :
    (handleComm st .getSubmarine).fst = { status := 200, body := .submarine v } := by
  simp [handleComm, h]

/-- Helper: a filled rgb-invoice slot is served back verbatim. -/
theorem getRgbInvoiceHtlc_of_some (st : CommState) (v : RgbInvoiceHtlcResponse)
    (h : st.rgbInvoiceHtlcResponse = some v) :
    (handleComm st .getRgbInvoiceHtlc).fst = { status := 200, body := .rgbInvoiceHtlc v } := by
  simp [handleComm, h]

/-- Helper: a filled funding slot is served back verbatim. -/
theorem getFunding_of_some (st : CommState) (v : FundingData)
    (h : st.fundingData = some v) :
    (handleComm st .getFunding).fst = { status := 200, body := .funding v } := by
  simp [handleComm, h]

/-- C7 counterexample: a poll on any of the three slots before any publish is
answered with HTTP 200 and the JSON error payload
`{ error: "No ... available yet" }` — not an empty/no-content response, and
not distinct from an error payload. -/
theorem handoff_empty_poll_counterexample :
    ((handleComm initialCommState .getSubmarine).fst
        = { status := 200, body := .errorNotAvailable }) ∧
    (isNoContent (handleComm initialCommState .getSubmarine).fst = false) ∧
    (isErrorPayload (handleComm initialCommState .getSubmarine).fst = true) ∧
    ((handleComm initialCommState .getRgbInvoiceHtlc).fst.body = .errorNotAvailable) ∧
    ((handleComm initialCommState .getFunding).fst.body = .errorNotAvailable) := by
  decide

/-- C7 amended: a poll on an empty slot returns HTTP 200 carrying an
error-descriptor JSON payload (which the polling client converts into a
retry), and a poll after one or more publishes — whether POSTed through the
server or set through the in-process publish functions — returns exactly the
most recently published value (last-write-wins, single overwritable slot per
artifact). -/
theorem handoff_slot_behavior :
    (∀ st : CommState, st.submarineRequest = none →
        (handleComm st .getSubmarine).fst = { status := 200, body := .errorNotAvailable } ∧
        isNoContent (handleComm st .getSubmarine).fst = false ∧
        isErrorPayload (handleComm st .getSubmarine).fst = true) ∧
    (∀ (st : CommState) (ds : List SubmarineRequest) (h : ds ≠ []),
        (handleComm (applyPosts st (ds.map (fun d => CommRequest.postSubmarine (some d))))
            .getSubmarine).fst = { status := 200, body := .submarine (ds.getLast h) }) ∧
    (∀ (st : CommState) (ds : List RgbInvoiceHtlcResponse) (h : ds ≠ []),
        (handleComm (applyPosts st (ds.map (fun d => CommRequest.postRgbInvoiceHtlc (some d))))
            .getRgbInvoiceHtlc).fst
          = { status := 200, body := .rgbInvoiceHtlc (ds.getLast h) }) ∧
    (∀ (st : CommState) (ds : List FundingData) (h : ds ≠ []),
        (handleComm (applyPosts st (ds.map (fun d => CommRequest.postFunding (some d))))
            .getFunding).fst = { status := 200, body := .funding (ds.getLast h) }) ∧
    (∀ (st : CommState) (ds : List SubmarineRequest) (h : ds ≠ []),
        (handleComm (ds.foldl publishSubmarineRequest st) .getSubmarine).fst
          = { status := 200, body := .submarine (ds.getLast h) }) ∧
    (∀ (st : CommState) (ds : List FundingData) (h : ds ≠ []),
        (handleComm (ds.foldl publishFundingData st) .getFunding).fst
          = { status := 200, body := .funding (ds.getLast h) }) := by
  refine ⟨?_, ?_, ?_, ?_, ?_, ?_⟩
  · intro st hnone
    simp [handleComm, hnone, isNoContent, isErrorPayload]
  · intro st ds h
    have hl := foldl_set_getLast
      (fun s d => (handleComm s (.postSubmarine (some d))).snd)
      (fun s => s.submarineRequest) (fun _ _ => rfl) ds h st
    simp only [applyPosts, List.foldl_map]
    exact getSubmarine_of_some _ _ hl
  · intro st ds h
    have hl := foldl_set_getLast
      (fun s d => (handleComm s (.postRgbInvoiceHtlc (some d))).snd)
      (fun s => s.rgbInvoiceHtlcResponse) (fun _ _ => rfl) ds h st
    simp only [applyPosts, List.foldl_map]
    exact getRgbInvoiceHtlc_of_some _ _ hl
  · intro st ds h
    have hl := foldl_set_getLast
      (fun s d => (handleComm s (.postFunding (some d))).snd)
      (fun s => s.fundingData) (fun _ _ => rfl) ds h st
    simp only [applyPosts, List.foldl_map]
    exact getFunding_of_some _ _ hl
  · intro st ds h
    have hl := foldl_set_getLast publishSubmarineRequest
      (fun s => s.submarineRequest) (fun _ _ => rfl) ds h st
    exact getSubmarine_of_some _ _ hl
  · intro st ds h
    have hl := foldl_set_getLast publishFundingData
      (fun s => s.fundingData) (fun _ _ => rfl) ds h st
    exact getFunding_of_some _ _ hl

/-- C7 amended witness: two successive publishes leave the slot at the second
value, and the pre-publish poll is the error-payload answer. -/
theorem handoff_slot_behavior_witness :
    ((handleComm initialCommState .getSubmarine).fst
        = { status := 200, body := .errorNotAvailable }) ∧
    ((handleComm (applyPosts initialCommState
          ([{ invoice := ['i', '1'], userRefundPubkeyHex := ['k', '1'] },
            { invoice := ['i', '2'], userRefundPubkeyHex := ['k', '2'] }].map
            (fun d => CommRequest.postSubmarine (some d)))) .getSubmarine).fst
        = { status := 200,
            body := .submarine { invoice := ['i', '2'], userRefundPubkeyHex := ['k', '2'] } }) := by
  constructor
  · exact (handoff_slot_behavior.1 initialCommState rfl).1
  · exact handoff_slot_behavior.2.1 initialCommState
      [{ invoice := ['i', '1'], userRefundPubkeyHex := ['k', '1'] },
       { invoice := ['i', '2'], userRefundPubkeyHex := ['k', '2'] }] (by decide)

/-! ## C9: HTLC builder input validation -/

/-- A 66-character pubkey argument with a valid `02` prefix whose remaining
characters are not hex: it passes the builder's textual validation although it
does not encode a 33-byte compressed point. -/
def junkPubkeyHex : List Char :=
  '0' :: '2' :: List.replicate 64 'z'

/-- A well-formed 64-hex-char payment hash argument. -/
def goodHash64 : List Char :=
  List.replicate 64 '1'

/-- A well-formed 66-hex-char compressed pubkey argument with prefix `03`. -/
def goodPubkeyHex : List Char :=
  '0' :: '3' :: List.replicate 64 '1'

/-- A well-formed 66-hex-char compressed pubkey argument with prefix `02`. -/
def goodPubkeyHex2 : List Char :=
  '0' :: '2' :: List.replicate 64 '4'

/-- A stand-in for the SHA-256 parameter in concrete runs. -/
def dummySha256 (bytes : List Nat) : List Nat :=
  List.replicate 32 (bytes.length % 256)

/-- C9 counterexample: a pubkey argument that is 66 characters long and starts
with `02` but is not hex passes validation, and the builder returns a contract
(whose decoded pubkey is 1 byte, not a 33-byte compressed point) instead of
failing with `InvalidInput`. -/
theorem htlc_pubkey_format_counterexample :
    (isOk (buildHtlcRedeemScript dummySha256 goodHash64 junkPubkeyHex goodPubkeyHex 500)
        = true) ∧
    ((hexDecode junkPubkeyHex).length = 1) ∧
    ((hexDecode junkPubkeyHex).length ≠ 33) := by
  decide

/-- C9 amended: the builder fails with `InvalidInput` exactly when the textual
checks fail — the payment hash is not 64 hex characters, or a pubkey argument
is not exactly 66 characters starting with `02` or `03`.  For arguments that
are hex encodings of byte inputs this coincides with the 32-byte-hash /
33-byte-compressed-point condition, but hexness of the pubkey characters after
the prefix is not itself checked. -/
theorem htlc_input_validation :
    ∀ (sha256 : List Nat → List Nat) (H lp user : List Char) (tLock : Int),
      isOk (buildHtlcRedeemScript sha256 H lp user tLock) = true ↔
        (isHex64 H = true ∧ isPubkeyStr lp = true ∧ isPubkeyStr user = true) := by
  intro sha256 H lp user tLock
  unfold buildHtlcRedeemScript
  by_cases h1 : isHex64 H = true <;> by_cases h2 : isPubkeyStr lp = true <;>
    by_cases h3 : isPubkeyStr user = true <;>
    simp [h1, h2, h3, isOk]

/-- C9 amended witness: valid textual arguments make the builder succeed. -/
theorem htlc_input_validation_witness :
    isOk (buildHtlcRedeemScript dummySha256 goodHash64 goodPubkeyHex2 goodPubkeyHex 500)
      = true :=
  (htlc_input_validation dummySha256 goodHash64 goodPubkeyHex2 goodPubkeyHex 500).mpr
    ⟨by decide, by decide, by decide⟩

/-! ## C1: preimage verification before broadcast -/

/-- The transaction carried by the first broadcast effect of a trace. -/
def firstBroadcastTx : List ClaimEffect → Option ClaimTx
  | .broadcast tx :: _ => some tx
  | [] => none

/-- A 1-byte preimage (hex string `00`), clearly not 32 bytes. -/
def shortPreimageHex : List Char :=
  ['0', '0']

/-- C1 counterexample: `claimWithPreimage` performs no preimage verification
of its own — called with a 1-byte preimage (which can never be the 32-byte
secret), it succeeds and broadcasts a witness embedding that unverified
preimage, instead of failing with `PreimageVerificationFailed`. -/
theorem claim_no_verification_counterexample :
    (isOk (claimWithPreimage sampleClaimEnv ⟨sampleTxid, 0, 10000⟩ sampleRedeemScript
        shortPreimageHex sampleWif sampleAddr).fst = true) ∧
    ((firstBroadcastTx (claimWithPreimage sampleClaimEnv ⟨sampleTxid, 0, 10000⟩
        sampleRedeemScript shortPreimageHex sampleWif sampleAddr).snd).map
        (fun tx => tx.witness.get? 1) = some (some (hexDecode shortPreimageHex))) ∧
    ((hexDecode shortPreimageHex).length = 1) ∧
    ((hexDecode shortPreimageHex).length ≠ 32) := by
  decide

/-- C1 amended: `claimWithPreimage` itself validates only the hex format of
the preimage; the SHA-256 verification against the payment hash happens in
the caller (`runSwap`, step 7) before `claimWithPreimage` is invoked, so
within the swap flow a preimage whose SHA-256 differs from the payment hash
aborts with `PreimageVerificationFailed` before any broadcast (empty effect
trace).  No 32-byte length check exists anywhere on this path. -/
theorem swap_claim_preimage_verification :
    ∀ (env : ClaimEnv) (H : List Char) (funding : FundingUtxo)
      (redeemScript : List Nat) (preimage wif addr : List Char),
      env.sha256hex (hexDecode preimage) ≠ H →
      runSwapClaimPhase env H funding redeemScript preimage wif addr
        = (.error .preimageVerificationFailed, []) := by
  intro env H funding redeemScript preimage wif addr hne
  unfold runSwapClaimPhase
  dsimp only
  rw [if_pos hne]

/-- C1 amended witness: a concrete mismatching preimage aborts the swap's
claim phase with `PreimageVerificationFailed` and no broadcast. -/
theorem swap_claim_preimage_verification_witness :
    runSwapClaimPhase sampleClaimEnv ['x'] ⟨sampleTxid, 0, 10000⟩ sampleRedeemScript
        shortPreimageHex sampleWif sampleAddr
      = (.error .preimageVerificationFailed, []) :=
  swap_claim_preimage_verification sampleClaimEnv ['x'] ⟨sampleTxid, 0, 10000⟩
    sampleRedeemScript shortPreimageHex sampleWif sampleAddr (by decide)

/-! ## C3: contract build / reconstruct round trip -/

/-- A concrete taproot-crypto environment for witness runs. -/
def sampleTaprootCrypto : TaprootCrypto :=
  { sha256 := dummySha256
    tapLeafHash := fun s => List.replicate 32 ((s.length + 1) % 256)
    tapBranch := fun a b => List.replicate 32 ((a.length + b.length) % 256)
    tweak := fun k r => List.replicate 32 ((k.length + r.length + 7) % 256)
    internalKey := List.replicate 32 0x50 }

/-- C3: building the HTLC contract is a pure function of its parameters (in
this embedding both builders are Lean functions, so recomputation from equal
parameters is definitionally equal), and for all valid inputs the
reconstruction of the output script from the same parameters yields exactly
the built contract's output script, for both the segwit-v0 (P2WSH) and the
taproot (P2TR) variants. -/
theorem htlc_roundtrip_determinism :
    (∀ (sha256 : List Nat → List Nat) (H lp user : List Char) (tLock : Int),
      isHex64 H = true → isPubkeyStr lp = true → isPubkeyStr user = true →
      isOk (buildHtlcRedeemScript sha256 H lp user tLock) = true ∧
      (buildHtlcRedeemScript sha256 H lp user tLock).map HTLCBuildResult.outputScript
        = .ok (reconstructP2WSHScriptPubKey sha256 H lp user tLock)) ∧
    (∀ (env : TaprootCrypto) (H lp user : List Char) (tLock : Int),
      isHex64 H = true → isPubkeyStr lp = true → isPubkeyStr user = true →
      isOk (buildP2TRHTLC env H lp user tLock) = true ∧
      (buildP2TRHTLC env H lp user tLock).map P2TRHTLCResult.outputScript
        = .ok (reconstructP2TRScriptPubKey env
            { payment_hash := H, lp_pubkey := lp, user_pubkey := user,
              cltv_expiry := tLock })) := by
  constructor
  · intro sha256 H lp user tLock h1 h2 h3
    constructor
    · simp [buildHtlcRedeemScript, h1, h2, h3, isOk]
    · simp [buildHtlcRedeemScript, reconstructP2WSHScriptPubKey, h1, h2, h3, Except.map]
  · intro env H lp user tLock h1 h2 h3
    constructor
    · simp [buildP2TRHTLC, h1, h2, h3, isOk]
    · simp [buildP2TRHTLC, reconstructP2TRScriptPubKey, h1, h2, h3, Except.map]

/-- C3 witness: the round trip at concrete valid parameters, both variants. -/
theorem htlc_roundtrip_determinism_witness :
    ((buildHtlcRedeemScript dummySha256 goodHash64 goodPubkeyHex2 goodPubkeyHex
        500).map HTLCBuildResult.outputScript
      = .ok (reconstructP2WSHScriptPubKey dummySha256 goodHash64 goodPubkeyHex2
          goodPubkeyHex 500)) ∧
    ((buildP2TRHTLC sampleTaprootCrypto goodHash64 goodPubkeyHex2 goodPubkeyHex
        500).map P2TRHTLCResult.outputScript
      = .ok (reconstructP2TRScriptPubKey sampleTaprootCrypto
          { payment_hash := goodHash64, lp_pubkey := goodPubkeyHex2,
            user_pubkey := goodPubkeyHex, cltv_expiry := 500 })) :=
  ⟨(htlc_roundtrip_determinism.1 dummySha256 goodHash64 goodPubkeyHex2 goodPubkeyHex 500
      (by decide) (by decide) (by decide)).2,
   (htlc_roundtrip_determinism.2 sampleTaprootCrypto goodHash64 goodPubkeyHex2 goodPubkeyHex
      500 (by decide) (by decide) (by decide)).2⟩

/-! ## C4: coin selection -/

/-- Helper: the fee estimate is monotone in the vbyte count for nonnegative
fee rates. -/
theorem ceilFee_mono (feeRate : ℚ) (hr : 0 ≤ feeRate) {a b : Nat} (h : a ≤ b) :
    ceilFee feeRate a ≤ ceilFee feeRate b := by
  unfold ceilFee
  exact Int.ceil_le_ceil (mul_le_mul_of_nonneg_right (by exact_mod_cast h) hr)

/-- Helper: value of a concatenation. -/
theorem listValue_append (a b : List SpendableUtxo) :
    listValue (a ++ b) = listValue a + listValue b := by
  simp [listValue]

/-- Helper: accounting of any successful greedy selection — a two-output split
has change at or above the dust limit and balances inputs = amount + fee +
change, while a one-output split has zero change and inputs covering amount
plus fee. -/
theorem selectGo_ok_spec (amountSat : Int) (feeRate : ℚ) (inVb outVb : Nat)
    (dustLimit : Int) :
    ∀ (l sel : List SpendableUtxo) (t : Int) (r : Selection),
      t = listValue sel →
      selectGo amountSat feeRate inVb outVb dustLimit l sel t = .ok r →
      ((dustLimit ≤ r.changeSat ∧
          listValue r.selected = amountSat + r.feeSat + r.changeSat) ∨
        (r.changeSat = 0 ∧ amountSat + r.feeSat ≤ listValue r.selected)) := by
  intro l
  induction l with
  | nil =>
    intro sel t r ht h
    simp [selectGo] at h
  | cons u rest IH =>
    intro sel t r ht h
    unfold selectGo at h
    dsimp only at h
    split at h
    · rename_i hc2
      simp only [Except.ok.injEq] at h
      subst h
      left
      refine ⟨hc2, ?_⟩
      dsimp only
      rw [listValue_append, ← ht]
      simp [listValue]
    · split at h
      · rename_i hc1
        simp only [Except.ok.injEq] at h
        subst h
        right
        refine ⟨rfl, ?_⟩
        dsimp only
        rw [listValue_append, ← ht]
        simp only [listValue, List.map_cons, List.map_nil, List.sum_cons,
          List.sum_nil, add_zero] at hc1 ⊢
        linarith
      · exact IH (sel ++ [u]) (t + u.valueSat) r
          (by rw [listValue_append, ht]; simp [listValue]) h

/-- Helper: the greedy loop succeeds exactly when some prefix of the remaining
list can cover the amount plus that prefix's one-output fee. -/
theorem selectGo_isOk_iff (amountSat : Int) (feeRate : ℚ) (inVb outVb : Nat)
    (dustLimit : Int) (hd : 0 ≤ dustLimit) (hr : 0 ≤ feeRate) :
    ∀ (l sel : List SpendableUtxo) (t : Int),
      isOk (selectGo amountSat feeRate inVb outVb dustLimit l sel t) = true ↔
        ∃ k, 1 ≤ k ∧ k ≤ l.length ∧
          amountSat
              + ceilFee feeRate (TX_OVERHEAD_VBYTES + (sel.length + k) * inVb + outVb)
            ≤ t + listValue (l.take k) := by
  intro l
  induction l with
  | nil =>
    intro sel t
    constructor
    · intro h
      simp [selectGo, isOk] at h
    · rintro ⟨k, hk1, hk2, -⟩
      simp at hk2
      omega
  | cons u rest IH =>
    intro sel t
    unfold selectGo
    dsimp only
    simp only [List.length_append, List.length_cons, List.length_nil]
    by_cases hc2 : dustLimit ≤ t + u.valueSat - amountSat
        - ceilFee feeRate (TX_OVERHEAD_VBYTES + (sel.length + 1) * inVb + 2 * outVb)
    · rw [if_pos (by simpa using hc2)]
      constructor
      · intro _
        refine ⟨1, le_refl 1, by simp, ?_⟩
        have hmono : ceilFee feeRate (TX_OVERHEAD_VBYTES + (sel.length + 1) * inVb + outVb)
            ≤ ceilFee feeRate (TX_OVERHEAD_VBYTES + (sel.length + 1) * inVb + 2 * outVb) :=
          ceilFee_mono feeRate hr (by omega)
        simp only [List.take_succ_cons, List.take_zero, listValue, List.map_cons,
          List.map_nil, List.sum_cons, List.sum_nil, add_zero]
        linarith
      · intro _
        exact rfl
    · rw [if_neg (by simpa using hc2)]
      by_cases hc1 : (0 : Int) ≤ t + u.valueSat - amountSat
          - ceilFee feeRate (TX_OVERHEAD_VBYTES + (sel.length + 1) * inVb + outVb)
      · rw [if_pos (by simpa using hc1)]
        constructor
        · intro _
          refine ⟨1, le_refl 1, by simp, ?_⟩
          simp only [List.take_succ_cons, List.take_zero, listValue, List.map_cons,
            List.map_nil, List.sum_cons, List.sum_nil, add_zero]
          linarith
        · intro _
          exact rfl
      · rw [if_neg (by simpa using hc1)]
        rw [IH (sel ++ [u]) (t + u.valueSat)]
        simp only [List.length_append, List.length_cons, List.length_nil]
        constructor
        · rintro ⟨k, hk1, hk2, hcov⟩
          refine ⟨k + 1, by omega, by omega, ?_⟩
          simp only [List.take_succ_cons, listValue, List.map_cons, List.sum_cons]
          have : sel.length + (0 + 1) + k = sel.length + (k + 1) := by omega
          rw [this] at hcov
          simp only [listValue] at hcov
          linarith
        · rintro ⟨k, hk1, hk2, hcov⟩
          match k, hk1 with
          | 1, _ =>
            exfalso
            simp only [List.take_succ_cons, List.take_zero, listValue, List.map_cons,
              List.map_nil, List.sum_cons, List.sum_nil, add_zero] at hcov
            have : sel.length + 1 = sel.length + 1 := rfl
            apply hc1
            linarith
          | (k' + 2), _ =>
            refine ⟨k' + 1, by omega, by omega, ?_⟩
            simp only [List.take_succ_cons, listValue, List.map_cons, List.sum_cons] at hcov
            have : sel.length + (0 + 1) + (k' + 1) = sel.length + (k' + 2) := by omega
            rw [this]
            simp only [listValue]
            linarith

/-- C4: coin selection never returns change that is positive but below the
dust threshold (change is 0 or at least the dust limit), every success is
either a balanced two-output split (payment + change) or a one-output split
(payment only, surplus below dust absorbed by the fee); it succeeds exactly
when some selection of the k largest UTXOs covers the amount plus that
selection's minimal (one-output) fee, and in particular succeeds whenever the
total value of the whole set covers the amount plus the whole set's minimal
fee, failing with `InsufficientFunds` exactly when no sufficient selection
exists. -/
theorem select_utxos_spec :
    ∀ (utxos : List SpendableUtxo) (amountSat : Int) (feeRate : ℚ)
      (inputVbytes outputVbytes : Nat) (dustLimit : Int),
      0 ≤ dustLimit → 0 ≤ feeRate →
      (∀ r, selectUtxos utxos amountSat feeRate inputVbytes outputVbytes dustLimit
          = .ok r →
        ((r.changeSat = 0 ∨ dustLimit ≤ r.changeSat) ∧
         ((dustLimit ≤ r.changeSat ∧
             listValue r.selected = amountSat + r.feeSat + r.changeSat) ∨
          (r.changeSat = 0 ∧ amountSat + r.feeSat ≤ listValue r.selected)))) ∧
      ((isOk (selectUtxos utxos amountSat feeRate inputVbytes outputVbytes dustLimit)
          = true) ↔
        ∃ k, 1 ≤ k ∧ k ≤ utxos.length ∧
          amountSat + oneOutputFee feeRate inputVbytes outputVbytes k
            ≤ takeValue (sortByValueDesc utxos) k) ∧
      (utxos ≠ [] →
        amountSat + oneOutputFee feeRate inputVbytes outputVbytes utxos.length
          ≤ listValue utxos →
        isOk (selectUtxos utxos amountSat feeRate inputVbytes outputVbytes dustLimit)
          = true) := by
  intro utxos amountSat feeRate inVb outVb dustLimit hd hr
  have hlen : (sortByValueDesc utxos).length = utxos.length :=
    (List.perm_insertionSort _ utxos).length_eq
  have hsum : listValue (sortByValueDesc utxos) = listValue utxos := by
    unfold listValue
    exact ((List.perm_insertionSort _ utxos).map _).sum_eq
  have hiff := selectGo_isOk_iff amountSat feeRate inVb outVb dustLimit hd hr
    (sortByValueDesc utxos) [] 0
  refine ⟨?_, ?_, ?_⟩
  · intro r hok
    have hspec := selectGo_ok_spec amountSat feeRate inVb outVb dustLimit
      (sortByValueDesc utxos) [] 0 r (by simp [listValue]) hok
    rcases hspec with ⟨hdust, hbal⟩ | ⟨hzero, hcov⟩
    · exact ⟨Or.inr hdust, Or.inl ⟨hdust, hbal⟩⟩
    · exact ⟨Or.inl hzero, Or.inr ⟨hzero, hcov⟩⟩
  · unfold selectUtxos
    rw [hiff]
    simp only [List.length_nil, Nat.zero_add, zero_add, hlen]
    rfl
  · intro hne hcov
    unfold selectUtxos
    rw [hiff]
    refine ⟨utxos.length, ?_, ?_, ?_⟩
    · have : utxos.length ≠ 0 := by
        intro h0
        exact hne (List.length_eq_zero.mp h0)
      omega
    · simp [hlen]
    · have htake : (sortByValueDesc utxos).take utxos.length = sortByValueDesc utxos := by
        rw [← hlen]
        exact List.take_length _
      simp only [List.length_nil, Nat.zero_add, zero_add, htake, hsum]
      exact hcov

/-- C4 witness: a concrete selection run — a single 5,000-sat UTXO against a
1,000-sat payment at 1 sat/vbyte succeeds. -/
theorem select_utxos_spec_witness :
    isOk (selectUtxos [{ txid := ['a'], vout := 0, valueSat := 5000 }] 1000 1 58 43 330)
      = true := by
  have h := select_utxos_spec [{ txid := ['a'], vout := 0, valueSat := 5000 }] 1000 1 58 43
    330 (by norm_num) (by norm_num)
  refine h.2.2 (by decide) ?_
  show (1000 : Int) + oneOutputFee 1 58 43 1 ≤ listValue _
  have : oneOutputFee 1 58 43 1 = 111 := by
    unfold oneOutputFee ceilFee TX_OVERHEAD_VBYTES
    norm_num
  rw [this]
  simp [listValue]

end ThunderSwap













